import Mathlib

/-!
Verification development for the review-monitor repository (src/app.py and
src/scraper.py).  The Python code is shallowly embedded: dictionaries become
structures, a key that may be absent or explicitly `None` becomes `PyField`,
floats become rationals, and the stateful orchestrator loop becomes a pure
fold that also records the sequence of status updates it writes.
-/

namespace ReviewMonitor

/-- Python dict field that can be absent, present with value `None`, or
present with a value.  `dict.get(k)` collapses `missing` and `null` to `None`,
while `dict.get(k, default)` returns the default only for `missing`. -/
inductive PyField (α : Type) where
  | missing
  | null
  | val (a : α)
deriving DecidableEq, Repr

/-- Python `dict.get(k)`: `missing` and `null` both read as `None`. -/
def PyField.get? {α : Type} : PyField α → Option α
  | .missing => none
  | .null => none
  | .val a => some a

/-- Python truthiness of an optional string (`if url:`): a missing key or
`None` or the empty string are falsy. -/
def pyTruthyStr (o : Option String) : Bool :=
  match o with
  | some s => s ≠ ""
  | none => false

/-- Python truthiness of a string-valued dict field (`if not review.get("owner_response")`). -/
def pyTruthyFieldStr (f : PyField String) : Bool :=
  match f with
  | .val s => s ≠ ""
  | _ => false

/-- One configured business, from businesses.json (`load_businesses`):
`id`, `name`, `address`, `google_maps_url` (here `url`). -/
structure Business where
  id : Option Int := none
  name : String := ""
  address : Option String := none
  url : Option String := none
deriving DecidableEq, Repr

/-- One extracted review, as built by `_extract_review_from_element` and by the
search-page fallback: `rating` and `owner_response` keep the three-way
missing / None / value distinction because `get_stats` treats them differently. -/
structure Review where
  reviewer_name : Option String := none
  rating : PyField Int := .missing
  text : String := ""
  date : Option String := none
  owner_response : PyField String := .missing
deriving DecidableEq, Repr

/-- One per-business scrape result dict, as produced by
`scrape_google_reviews` (success path) or by the error record built in
`do_scrape` (`{"id", "name", "error", "reviews": []}`). -/
structure BizResult where
  id : Option Int := none
  name : String := ""
  url : Option String := none
  overall_rating : Option ℚ := none
  total_reviews : Option Int := none
  reviews : List Review := []
  error : Option String := none
deriving DecidableEq, Repr

/-! Orchestrator: `run_scrape_background` / `do_scrape` in src/app.py. -/

/-- Outcome of the awaited call `scraper.scrape_google_reviews(...)` for one
business: it either returns a dict or raises (message of the exception). -/
inductive ScrapeOutcome where
  | ok (data : BizResult)
  | exn (msg : String)

/-- The error record appended by the `except` branch of `do_scrape`:
`{"id": biz.get("id"), "name": biz["name"], "error": str(e), "reviews": []}`. -/
def errEntry (b : Business) (e : String) : BizResult :=
  { id := b.id, name := b.name, error := some e, reviews := [] }

/-- Result entry appended for one scraped business: on success the returned
dict with `data["id"] = biz.get("id")`, on an escaped exception the error
record. -/
def entryFor (outcome : Business → ScrapeOutcome) (b : Business) : BizResult :=
  match outcome b with
  | .ok d => { d with id := b.id }
  | .exn e => errEntry b e

/-- One record written by `set_scrape_status` into scrape_status.json. -/
structure StatusRec where
  status : String
  progress : Nat
  total : Nat
  current : Option String
deriving DecidableEq, Repr

/-- The `for i, biz in enumerate(businesses)` loop of `do_scrape`: a business
with a truthy url is scraped (status update with progress `i+1`, then a result
entry); a business without one is skipped entirely. -/
def scrapeLoop (outcome : Business → ScrapeOutcome) (total : Nat) :
    List Business → Nat → List BizResult × List StatusRec
  | [], _ => ([], [])
  | b :: rest, i =>
    if pyTruthyStr b.url then
      (entryFor outcome b :: (scrapeLoop outcome total rest (i + 1)).1,
        { status := "running", progress := i + 1, total := total,
          current := some b.name } :: (scrapeLoop outcome total rest (i + 1)).2)
    else scrapeLoop outcome total rest (i + 1)

/-- The whole of `run_scrape_background` + `do_scrape` (minus I/O): returns the
final result list and the sequence of status records written, from the initial
`("running", 0, total)` to the final `("completed", total, total)`. -/
def runScrape (businesses : List Business) (outcome : Business → ScrapeOutcome) :
    List BizResult × List StatusRec :=
  ((scrapeLoop outcome businesses.length businesses 0).1,
    { status := "running", progress := 0, total := businesses.length, current := none }
      :: (scrapeLoop outcome businesses.length businesses 0).2
      ++ [{ status := "completed", progress := businesses.length,
            total := businesses.length, current := none }])

/-- Result entries contributed by a list of businesses, independent of loop
position: one entry per business with a truthy url, in order. -/
def entriesOf (outcome : Business → ScrapeOutcome) (l : List Business) : List BizResult :=
  l.filterMap (fun b => if pyTruthyStr b.url then some (entryFor outcome b) else none)

/-- Behaviour of the page inside `scrape_google_reviews`: either `page.goto`
raises (navigation failure, message recorded), or the page loads and the
per-flavour extraction (`_scrape_maps_page` / `_scrape_search_page`) maps the
initial `business_info` dict to the final one. -/
inductive PageOutcome where
  | navFail (msg : String)
  | loaded (extract : BizResult → BizResult)

/-- The body of `scrape_google_reviews`: builds the initial `business_info`,
and on any exception inside the `try` records `str(e)` in `error` and returns
the dict (so `reviews` keeps its initial `[]`). -/
def scrapeGoogleReviews (business_name google_url : String) (po : PageOutcome) : BizResult :=
  let base : BizResult :=
    { name := business_name, url := some google_url, overall_rating := none,
      total_reviews := some 0, reviews := [], error := none }
  match po with
  | .navFail e => { base with error := some e }
  | .loaded extract => extract base

/-! Trigger endpoint: `trigger_scrape` in src/app.py. -/

/-- Response returned by the `/api/scrape` POST handler. -/
inductive TriggerResp where
  | alreadyRunning (message : String)
  | started (message : String)
deriving DecidableEq, Repr

/-- What `trigger_scrape` does: the response, the status as left by the
handler itself (it never writes the status file), and whether a background
run thread was started. -/
structure TriggerOutcome where
  resp : TriggerResp
  statusAfter : StatusRec
  runStarted : Bool
deriving DecidableEq, Repr

/-- The `trigger_scrape` handler: if the persisted status is `"running"` it
answers `already_running` and does nothing else; otherwise it starts the
background run and answers `started`. -/
def triggerScrape (st : StatusRec) : TriggerOutcome :=
  if st.status = "running" then
    { resp := .alreadyRunning
        ("Scrape already in progress: " ++ toString st.progress ++ "/" ++ toString st.total),
      statusAfter := st, runStarted := false }
  else
    { resp := .started "Scrape started in background", statusAfter := st, runStarted := true }

/-! Field parsing in src/scraper.py: the three rating-extraction paths. -/

/-- ASCII digit test, the embedding of the regex class `\d`. -/
def isDig (c : Char) : Bool := 48 ≤ c.toNat && c.toNat ≤ 57

/-- Numeric value of a digit character, as a rational. -/
def digitValQ (c : Char) : ℚ := ((c.toNat - 48 : ℕ) : ℚ)

/-- Numeric value of a digit character, as an integer. -/
def digitValI (c : Char) : Int := ((c.toNat - 48 : ℕ) : Int)

/-- Python `str.strip()` on the characters of a string (whitespace on both ends). -/
def pyStrip (s : String) : String :=
  String.mk (((s.data.dropWhile Char.isWhitespace).reverse.dropWhile Char.isWhitespace).reverse)

/-- Python `str.replace(",", ".")`: every comma becomes a dot. -/
def commaToDot (s : String) : String :=
  String.mk (s.data.map (fun c => if c = ',' then '.' else c))

/-- Full match of the maps-page rating pattern `^\d\.?\d?$` together with
Python `float(...)` of the matched text: the shapes are a digit, digit-dot,
two digits, or digit-dot-digit. -/
def matchMapsRating : List Char → Option ℚ
  | [a] => if isDig a then some (digitValQ a) else none
  | [a, b] =>
    if isDig a then
      if b = '.' then some (digitValQ a)
      else if isDig b then some (10 * digitValQ a + digitValQ b)
      else none
    else none
  | [a, b, c] =>
    if isDig a ∧ b = '.' ∧ isDig c then some (digitValQ a + digitValQ c / 10) else none
  | _ => none

/-- Maps-page overall-rating parse (src/scraper.py lines 73-76):
`rating_text.strip().replace(",", ".")`, then `re.match(r'^\d\.?\d?$', ...)`,
then `float(...)`.  There is no range check on this path. -/
def mapsParseOverallRating (raw : String) : Option ℚ :=
  matchMapsRating (commaToDot (pyStrip raw)).data

/-- Split off a maximal run of leading digits (the regex `\d+` / `\d*`). -/
def takeDigits : List Char → List Char × List Char
  | [] => ([], [])
  | c :: t =>
    if isDig c then ((c :: (takeDigits t).1), (takeDigits t).2)
    else ([], c :: t)

/-- Value of a digit run read as an integer part. -/
def digitsIntVal (l : List Char) : ℚ := l.foldl (fun acc c => 10 * acc + digitValQ c) 0

/-- Value of a digit run read as a fractional part (digits after the dot). -/
def digitsFracVal (l : List Char) : ℚ := l.foldr (fun c acc => (digitValQ c + acc) / 10) 0

/-- Python `re.search(r'(\d+\.?\d*)', text)` followed by `float(...)`: the
first digit run, optionally a dot and a further digit run. -/
def scanFirstNumber : List Char → Option ℚ
  | [] => none
  | c :: t =>
    if isDig c then
      some (match (takeDigits (c :: t)).2 with
        | '.' :: r2 => digitsIntVal (takeDigits (c :: t)).1 + digitsFracVal (takeDigits r2).1
        | _ => digitsIntVal (takeDigits (c :: t)).1)
    else scanFirstNumber t

/-- Search-page overall-rating parse (src/scraper.py lines 163-169): first
number in the element text, accepted only when `0 < rating <= 5`. -/
def searchParseOverallRating (raw : String) : Option ℚ :=
  match scanFirstNumber raw.data with
  | some v => if 0 < v ∧ v ≤ 5 then some v else none
  | none => none

/-- First digit character of a string, the embedding of `re.search(r'(\d)', s)`. -/
def firstDigit : List Char → Option Char
  | [] => none
  | c :: t => if isDig c then some c else firstDigit t

/-- Review star-rating extraction from a resolved stars element
(src/scraper.py lines 258-264): read the `aria-label` attribute, take the
first digit found in it as the rating; no range check. -/
def extractReviewStars (ariaLabel : Option String) : PyField Int :=
  match ariaLabel with
  | none => .missing
  | some l =>
    match firstDigit l.data with
    | some c => .val (digitValI c)
    | none => .missing

/-! Ordered-strategy field extraction (the selector loops of src/scraper.py,
e.g. lines 69-78 and 159-169): try selectors in order; a selector that does
not resolve, or resolves to text that fails to parse, is skipped; the first
selector that resolves and parses wins and stops the loop. -/

/-- The selector-loop shape shared by the rating/count extraction blocks:
`resolve` is `page.query_selector` + `inner_text` (None when the element is
absent or the query raises), `parse` is the field's validation. -/
def extractFirst {β : Type} (resolve : String → Option String) (parse : String → Option β) :
    List String → Option β
  | [] => none
  | s :: rest =>
    match resolve s with
    | none => extractFirst resolve parse rest
    | some t =>
      match parse t with
      | some v => some v
      | none => extractFirst resolve parse rest

/-- The selector list for the maps-page overall rating (src/scraper.py line 69). -/
def mapsRatingSelectors : List String :=
  ["div.fontDisplayLarge", "span.fontDisplayLarge", "div.F7nice span",
    "[class*=\"fontDisplayLarge\"]"]

/-- The maps-page overall-rating extraction block as an instance of the
ordered-strategy loop. -/
def mapsExtractOverallRating (query : String → Option String) : Option ℚ :=
  extractFirst query mapsParseOverallRating mapsRatingSelectors

/-- Value a single strategy would contribute: resolve, then parse. -/
def stratValue {β : Type} (resolve : String → Option String) (parse : String → Option β)
    (s : String) : Option β :=
  (resolve s).bind parse

/-! Scroll loop (src/scraper.py lines 113-121): if the reviews container is
found, run exactly `for _ in range(10)` scroll-to-bottom steps, sleeping 1
second after each; there is no check for newly appeared items. -/

/-- The `for _ in range(n)` scroll loop over an abstract page state: returns
the final state, the number of scroll iterations performed, and the list of
pause durations (seconds) slept. -/
def scrollIter {σ : Type} (step : σ → σ) : Nat → σ → σ × Nat × List Nat
  | 0, s => (s, 0, [])
  | n + 1, s =>
    ((scrollIter step n (step s)).1, (scrollIter step n (step s)).2.1 + 1,
      1 :: (scrollIter step n (step s)).2.2)

/-- The whole scroll block: nothing happens when the container is absent,
otherwise the fixed 10-iteration loop runs. -/
def scrollLoop {σ : Type} (hasContainer : Bool) (step : σ → σ) (s0 : σ) : σ × Nat × List Nat :=
  if hasContainer then scrollIter step 10 s0 else (s0, 0, [])

/-! Stats aggregation: `get_stats` in src/app.py. -/

/-- The `{"1": 0, ..., "5": 0}` rating histogram. -/
structure RatingDist where
  one : Nat := 0
  two : Nat := 0
  three : Nat := 0
  four : Nat := 0
  five : Nat := 0
deriving DecidableEq, Repr

/-- Increment of the bucket `str(rating)`; called only for ratings in 1..5. -/
def RatingDist.incr (d : RatingDist) (n : Int) : RatingDist :=
  if n = 1 then { d with one := d.one + 1 }
  else if n = 2 then { d with two := d.two + 1 }
  else if n = 3 then { d with three := d.three + 1 }
  else if n = 4 then { d with four := d.four + 1 }
  else if n = 5 then { d with five := d.five + 1 }
  else d

/-- Histogram update for one review: `if rating and 1 <= rating <= 5` (a
missing or `None` or zero rating is skipped without error). -/
def distStep (d : RatingDist) (r : Review) : RatingDist :=
  match r.rating with
  | .val n => if n ≠ 0 ∧ 1 ≤ n ∧ n ≤ 5 then d.incr n else d
  | _ => d

/-- One entry of `businesses_summary`. -/
structure BizSummary where
  id : Option Int
  name : String
  address : Option String
  rating : Option ℚ
  review_count : Nat
  url : Option String
  rating_distribution : RatingDist
deriving DecidableEq, Repr

/-- One entry of `needs_response`. -/
structure NeedsItem where
  business_name : String
  reviewer : Option String
  rating : Option Int
  text : String
  date : Option String
deriving DecidableEq, Repr

/-- One entry of `recent_reviews` (`{"business_name": ..., **review}`). -/
structure RecentItem where
  business_name : String
  review : Review
deriving DecidableEq, Repr

/-- The dict returned by `get_stats`. -/
structure Stats where
  total_businesses : Nat
  total_reviews : Nat
  average_rating : ℚ
  rating_distribution : RatingDist
  businesses_summary : List BizSummary
  recent_reviews : List RecentItem
  needs_response : List NeedsItem
  scraped_at : Option String
deriving DecidableEq, Repr

/-- Whether `needle` matches at the head of `hay`. -/
def charsMatchAt : List Char → List Char → Bool
  | [], _ => true
  | _ :: _, [] => false
  | a :: as, b :: bs => a == b && charsMatchAt as bs

/-- Python substring test `needle in hay` on character lists. -/
def charsHasSub (needle : List Char) : List Char → Bool
  | [] => needle.isEmpty
  | c :: t => charsMatchAt needle (c :: t) || charsHasSub needle t

/-- Python `"GS Thompson" in b.get("name", "")`. -/
def isGS (b : Business) : Bool := charsHasSub "GS Thompson".data b.name.data

/-- The filter on line 210 of src/app.py: businesses whose name contains
"GS Thompson" are removed before any aggregation. -/
def nonGSList (cfg : List Business) : List Business := cfg.filter (fun b => !isGS b)

/-- The dict comprehension `{b.get("id"): b for b in ...}` followed by
`.get(biz_id, {})`: lookup by id where a later result with the same id
overwrites an earlier one. -/
def lookupScraped (results : List BizResult) (key : Option Int) : Option BizResult :=
  (results.filter (fun r => r.id == key)).getLast?

/-- The reviews of the looked-up result (`scraped_biz.get("reviews", [])`):
an absent business reads as the empty list. -/
def reviewsFor (results : List BizResult) (b : Business) : List Review :=
  ((lookupScraped results b.id).map (fun r => r.reviews)).getD []

/-- The overall rating of the looked-up result (`scraped_biz.get("overall_rating")`). -/
def ratingFor (results : List BizResult) (b : Business) : Option ℚ :=
  (lookupScraped results b.id).bind (fun r => r.overall_rating)

/-- The contribution of one business to `all_ratings`: appended only when
`if biz_rating:` is truthy, which excludes both an absent and a zero rating. -/
def includedRating (results : List BizResult) (b : Business) : Option ℚ :=
  match ratingFor results b with
  | some r => if r ≠ 0 then some r else none
  | none => none

/-- Per-business rating histogram, rebuilt from zero for each business. -/
def bizDist (reviews : List Review) : RatingDist := reviews.foldl distStep {}

/-- The `businesses_summary` entry built for one configured business. -/
def summaryFor (results : List BizResult) (b : Business) : BizSummary :=
  { id := b.id, name := b.name, address := b.address,
    rating := ratingFor results b, review_count := (reviewsFor results b).length,
    url := b.url, rating_distribution := bizDist (reviewsFor results b) }

/-- The `needs_response` entry built from one qualifying review. -/
def mkNeedsItem (bname : String) (r : Review) : NeedsItem :=
  { business_name := bname, reviewer := r.reviewer_name, rating := r.rating.get?,
    text := String.mk (r.text.data.take 200), date := r.date }

/-- The needs-response test for one review, in evaluation order:
`not review.get("owner_response")` first, then `review.get("rating", 5) <= 3`.
A rating key that is present with value `None` makes the comparison
`None <= 3` raise a `TypeError`, modelled as `Except.error`. -/
def reviewNeeds (bname : String) (r : Review) : Except Unit (Option NeedsItem) :=
  if pyTruthyFieldStr r.owner_response then .ok none
  else
    match r.rating with
    | .missing => .ok none
    | .null => .error ()
    | .val n => .ok (if n ≤ 3 then some (mkNeedsItem bname r) else none)

/-- The needs-response loop over one business's reviews, in review order. -/
def needsList (bname : String) : List Review → Except Unit (List NeedsItem)
  | [] => .ok []
  | r :: rs =>
    match reviewNeeds bname r with
    | .error e => .error e
    | .ok o =>
      match needsList bname rs with
      | .error e => .error e
      | .ok rest => .ok (o.toList ++ rest)

/-- The mutable accumulators of the `for config_biz in non_gs_businesses` loop. -/
structure StatsAcc where
  total_reviews : Nat := 0
  all_ratings : List ℚ := []
  dist : RatingDist := {}
  summaries : List BizSummary := []
  needs : List NeedsItem := []
  recent : List RecentItem := []
deriving DecidableEq, Repr

/-- The loop body of `get_stats` for one configured business: count reviews,
collect the truthy overall rating, update the global histogram, append the
summary entry, extend `needs_response` (which can raise) and `recent_reviews`. -/
def processBiz (results : List BizResult) (acc : StatsAcc) (b : Business) :
    Except Unit StatsAcc :=
  match needsList b.name (reviewsFor results b) with
  | .error e => .error e
  | .ok items =>
    .ok { total_reviews := acc.total_reviews + (reviewsFor results b).length
        , all_ratings := acc.all_ratings ++ (includedRating results b).toList
        , dist := (reviewsFor results b).foldl distStep acc.dist
        , summaries := acc.summaries ++ [summaryFor results b]
        , needs := acc.needs ++ items
        , recent := acc.recent ++ ((reviewsFor results b).take 5).map
            (fun r => { business_name := b.name, review := r }) }

/-- The per-business loop of `get_stats`, aborting on the first raised error. -/
def statsFold (results : List BizResult) : List Business → StatsAcc → Except Unit StatsAcc
  | [], acc => .ok acc
  | b :: l, acc =>
    match processBiz results acc b with
    | .error e => .error e
    | .ok acc1 => statsFold results l acc1

/-- Round-half-to-even of a rational to an integer, the rounding used by
Python's builtin `round`. -/
def roundHalfEven (q : ℚ) : ℤ :=
  if q - Rat.floor q < 1 / 2 then Rat.floor q
  else if (1 : ℚ) / 2 < q - Rat.floor q then Rat.floor q + 1
  else if Rat.floor q % 2 = 0 then Rat.floor q else Rat.floor q + 1

/-- Python `round(x, 2)`, modelled over exact rationals. -/
def pyRound2 (q : ℚ) : ℚ := (roundHalfEven (q * 100) : ℚ) / 100

/-- The whole of `get_stats` (src/app.py lines 187-268): filter out
"GS Thompson" businesses, fold the per-business loop, then finalize the
average (`round(sum/len, 2)` when `all_ratings` is nonempty) and truncate
`recent_reviews` and `needs_response` to 20. -/
def getStats (cfg : List Business) (results : List BizResult) (scraped_at : Option String) :
    Except Unit Stats :=
  match statsFold results (nonGSList cfg) {} with
  | .error e => .error e
  | .ok acc =>
    .ok { total_businesses := (nonGSList cfg).length
        , total_reviews := acc.total_reviews
        , average_rating :=
            if acc.all_ratings = [] then 0
            else pyRound2 (acc.all_ratings.sum / (acc.all_ratings.length : ℚ))
        , rating_distribution := acc.dist
        , businesses_summary := acc.summaries
        , recent_reviews := acc.recent.take 20
        , needs_response := acc.needs.take 20
        , scraped_at := scraped_at }

/-- Projection used to state facts about a successful aggregation. -/
def statsOf (e : Except Unit Stats) : Option Stats :=
  match e with
  | .ok s => some s
  | .error _ => none

/-- Modelled from the claim wording of C5 (not from the code): the arithmetic
mean of the overall ratings of exactly those configured businesses whose
overall rating is present. -/
def claimAverageRating (cfg : List Business) (results : List BizResult) : ℚ :=
  if cfg.filterMap (ratingFor results) = [] then 0
  else (cfg.filterMap (ratingFor results)).sum / ((cfg.filterMap (ratingFor results)).length : ℚ)

/-! Helper lemmas about digits and the rating parsers. -/

lemma isDig_toNat (c : Char) (h : isDig c = true) : 48 ≤ c.toNat ∧ c.toNat ≤ 57 := by
  simpa [isDig] using h

lemma digitValQ_bounds (c : Char) (h : isDig c = true) : 0 ≤ digitValQ c ∧ digitValQ c ≤ 9 := by
  obtain ⟨h1, h2⟩ := isDig_toNat c h
  unfold digitValQ
  constructor
  · exact_mod_cast Nat.zero_le _
  · have hn : c.toNat - 48 ≤ 9 := by omega
    exact_mod_cast hn

lemma matchMapsRating_bounds (l : List Char) (v : ℚ) (h : matchMapsRating l = some v) :
    0 ≤ v ∧ v ≤ 99 := by
  rcases l with _ | ⟨a, _ | ⟨b, _ | ⟨c, _ | ⟨d, t⟩⟩⟩⟩
  · simp [matchMapsRating] at h
  · simp only [matchMapsRating] at h
    split at h
    · injection h with h
      subst h
      obtain ⟨h1, h2⟩ := digitValQ_bounds a (by assumption)
      exact ⟨h1, by linarith⟩
    · exact absurd h (by simp)
  · simp only [matchMapsRating] at h
    split at h
    · split at h
      · injection h with h
        subst h
        obtain ⟨h1, h2⟩ := digitValQ_bounds a (by assumption)
        exact ⟨h1, by linarith⟩
      · split at h
        · injection h with h
          subst h
          obtain ⟨h1, h2⟩ := digitValQ_bounds a (by assumption)
          obtain ⟨h3, h4⟩ := digitValQ_bounds b (by assumption)
          exact ⟨by linarith, by linarith⟩
        · exact absurd h (by simp)
    · exact absurd h (by simp)
  · simp only [matchMapsRating] at h
    split at h
    · rename_i hcond
      obtain ⟨ha, hb, hc⟩ := hcond
      injection h with h
      subst h
      obtain ⟨h1, h2⟩ := digitValQ_bounds a ha
      obtain ⟨h3, h4⟩ := digitValQ_bounds c hc
      exact ⟨by linarith, by linarith⟩
    · exact absurd h (by simp)
  · simp [matchMapsRating] at h

lemma searchParse_bounds (s : String) (v : ℚ) (h : searchParseOverallRating s = some v) :
    0 < v ∧ v ≤ 5 := by
  unfold searchParseOverallRating at h
  cases hs : scanFirstNumber s.data with
  | none =>
    simp only [hs] at h
    exact Option.noConfusion h
  | some w =>
    simp only [hs] at h
    by_cases hw : 0 < w ∧ w ≤ 5
    · rw [if_pos hw] at h
      injection h with h
      subst h
      exact hw
    · rw [if_neg hw] at h
      exact absurd h (by simp)

lemma firstDigit_isDig (l : List Char) (c : Char) (h : firstDigit l = some c) :
    isDig c = true := by
  induction l with
  | nil => simp [firstDigit] at h
  | cons a t ih =>
    simp only [firstDigit] at h
    split at h
    · injection h with h
      subst h
      assumption
    · exact ih h

lemma extractReviewStars_bounds (o : Option String) (n : Int)
    (h : extractReviewStars o = PyField.val n) : 0 ≤ n ∧ n ≤ 9 := by
  cases o with
  | none => simp [extractReviewStars] at h
  | some l =>
    simp only [extractReviewStars] at h
    cases hf : firstDigit l.data with
    | none => rw [hf] at h; exact absurd h (by simp)
    | some c =>
      rw [hf] at h
      injection h with h
      obtain ⟨h1, h2⟩ := isDig_toNat c (firstDigit_isDig l.data c hf)
      subst h
      unfold digitValI
      constructor
      · exact_mod_cast Nat.zero_le _
      · have hn : c.toNat - 48 ≤ 9 := by omega
        exact_mod_cast hn

/-! C3: extracted rating values and the [0,5] range. -/

/-- C3 counterexample: the claim says an out-of-range rating text such as
"9.0 stars" never produces a stored rating, and that every extracted rating
lies in [0,5].  But the review star-rating extraction stores the first digit
of the aria-label with no range check, so "9.0 stars" stores rating 9; and the
maps-page overall-rating path stores `float("9.0") = 9.0` with no range check. -/
theorem c3_out_of_range_rating_stored :
    extractReviewStars (some "9.0 stars") = PyField.val 9
    ∧ mapsParseOverallRating "9.0" = some 9
    ∧ ¬ ((9 : Int) ≤ 5) ∧ ¬ ((9 : ℚ) ≤ 5) := by
  refine ⟨by decide, ?_, by decide, by norm_num⟩
  have h1 : mapsParseOverallRating "9.0" = some (digitValQ '9' + digitValQ '0' / 10) := rfl
  have h9 : digitValQ '9' = 9 := by decide
  have h0 : digitValQ '0' = 0 := by decide
  rw [h1, h9, h0]
  norm_num

/-- C3 amended: rating bounds hold per extraction path.  The search-page
overall rating is absent or in (0,5]; the maps-page overall rating is checked
only against the shape `\d\.?\d?` and so is absent or in [0,99]; a review's
star rating is the first digit of the aria-label and so is absent or in
[0,9].  Out-of-range values such as 9 can therefore be stored. -/
theorem c3_rating_bounds_per_path :
    (∀ (s : String) (v : ℚ), searchParseOverallRating s = some v → 0 < v ∧ v ≤ 5)
    ∧ (∀ (s : String) (v : ℚ), mapsParseOverallRating s = some v → 0 ≤ v ∧ v ≤ 99)
    ∧ (∀ (o : Option String) (n : Int), extractReviewStars o = PyField.val n →
        0 ≤ n ∧ n ≤ 9) :=
  ⟨searchParse_bounds,
    fun s v h => matchMapsRating_bounds (commaToDot (pyStrip s)).data v h,
    extractReviewStars_bounds⟩

/-- C3 amended witness: the bounds evaluated at the concrete search-page
text "4.5 stars". -/
theorem c3_rating_bounds_per_path_witness :
    searchParseOverallRating "4.5 stars" = some (9 / 2)
    ∧ 0 < (9 / 2 : ℚ) ∧ (9 / 2 : ℚ) ≤ 5 := by
  have hscan : scanFirstNumber "4.5 stars".data
      = some (digitsIntVal ['4'] + digitsFracVal ['5']) := rfl
  have h4 : digitValQ '4' = 4 := by decide
  have h5 : digitValQ '5' = 5 := by decide
  have hv : digitsIntVal ['4'] + digitsFracVal ['5'] = 9 / 2 := by
    norm_num [digitsIntVal, digitsFracVal, h4, h5]
  have hparse : searchParseOverallRating "4.5 stars" = some (9 / 2) := by
    unfold searchParseOverallRating
    rw [hscan, hv]
    show (if 0 < (9 / 2 : ℚ) ∧ (9 / 2 : ℚ) ≤ 5 then some ((9 : ℚ) / 2) else none)
      = some ((9 : ℚ) / 2)
    rw [if_pos (by norm_num)]
  exact ⟨hparse, c3_rating_bounds_per_path.1 "4.5 stars" (9 / 2) hparse⟩

/-! C2: the already-running guard of `trigger_scrape`. -/

/-- C2: while the persisted status is "running", a trigger request returns the
already-running rejection, leaves the status untouched and starts no run; and
a run is only started when the status is not "running". -/
theorem c2_trigger_idempotent_reject (st : StatusRec) :
    (st.status = "running" →
      triggerScrape st =
        { resp := TriggerResp.alreadyRunning
            ("Scrape already in progress: " ++ toString st.progress ++ "/" ++ toString st.total),
          statusAfter := st, runStarted := false })
    ∧ (triggerScrape st).statusAfter = st
    ∧ ((triggerScrape st).runStarted = true → ¬ st.status = "running") := by
  unfold triggerScrape
  by_cases h : st.status = "running" <;> simp [h]

/-- C2 witness: the guard evaluated at a concrete running status. -/
theorem c2_trigger_idempotent_reject_witness :
    triggerScrape { status := "running", progress := 3, total := 5, current := none } =
      { resp := TriggerResp.alreadyRunning "Scrape already in progress: 3/5",
        statusAfter := { status := "running", progress := 3, total := 5, current := none },
        runStarted := false } :=
  (c2_trigger_idempotent_reject
    { status := "running", progress := 3, total := 5, current := none }).1 rfl

/-! C7: ordered-strategy extraction determinism. -/

lemma extractFirst_cons_skip {β : Type} (resolve : String → Option String)
    (parse : String → Option β) (s : String) (l : List String)
    (h : stratValue resolve parse s = none) :
    extractFirst resolve parse (s :: l) = extractFirst resolve parse l := by
  unfold stratValue at h
  cases hr : resolve s with
  | none => simp [extractFirst, hr]
  | some t =>
    rw [hr] at h
    simp only [Option.some_bind] at h
    simp [extractFirst, hr, h]

/-- C7: in the selector loops, the first strategy that resolves and parses
validly wins regardless of what any later strategy would produce, and a
strategy that resolves but fails to parse is skipped in favour of the rest
of the list. -/
theorem c7_first_valid_strategy_wins (β : Type) (resolve : String → Option String)
    (parse : String → Option β) (pre post : List String) (s t : String) (v : β)
    (hpre : ∀ s2 ∈ pre, stratValue resolve parse s2 = none)
    (hres : resolve s = some t) (hp : parse t = some v) :
    extractFirst resolve parse (pre ++ s :: post) = some v
    ∧ ∀ (s3 t3 : String) (rest : List String), resolve s3 = some t3 → parse t3 = none →
        extractFirst resolve parse (s3 :: rest) = extractFirst resolve parse rest := by
  constructor
  · induction pre with
    | nil => simp [extractFirst, hres, hp]
    | cons a l ih =>
      rw [List.cons_append, extractFirst_cons_skip resolve parse a _ (hpre a (by simp))]
      exact ih (fun s2 hs2 => hpre s2 (by simp [hs2]))
  · intro s3 t3 rest h1 h2
    exact extractFirst_cons_skip resolve parse s3 rest (by simp [stratValue, h1, h2])

/-- Concrete page behaviour for the C7 witness: the first maps rating selector
resolves to unparsable text, the second to "4.5". -/
def resolveW : String → Option String := fun sel =>
  if sel = "div.fontDisplayLarge" then some "zz"
  else if sel = "span.fontDisplayLarge" then some "4.5" else none

/-- C7 witness: on a concrete page the maps rating loop returns the value of
the second selector, the first one having resolved but failed to parse. -/
theorem c7_first_valid_strategy_wins_witness :
    resolveW "span.fontDisplayLarge" = some "4.5"
    ∧ mapsParseOverallRating "4.5" = some (9 / 2)
    ∧ extractFirst resolveW mapsParseOverallRating
        (["div.fontDisplayLarge"] ++ "span.fontDisplayLarge" :: ["div.F7nice span"])
        = some (9 / 2) := by
  have h1 : mapsParseOverallRating "4.5" = some (digitValQ '4' + digitValQ '5' / 10) := rfl
  have h4 : digitValQ '4' = 4 := by decide
  have h5 : digitValQ '5' = 5 := by decide
  have hp : mapsParseOverallRating "4.5" = some (9 / 2) := by
    rw [h1, h4, h5]
    norm_num
  refine ⟨rfl, hp, ?_⟩
  exact (c7_first_valid_strategy_wins ℚ resolveW mapsParseOverallRating
    ["div.fontDisplayLarge"] ["div.F7nice span"] "span.fontDisplayLarge" "4.5" (9 / 2)
    (by decide) rfl hp).1

/-! C8: the scroll loop is bounded but has no early-termination check. -/

lemma scrollIter_count {σ : Type} (step : σ → σ) :
    ∀ (n : Nat) (s : σ), (scrollIter step n s).2.1 = n
      ∧ (scrollIter step n s).2.2 = List.replicate n 1 := by
  intro n
  induction n with
  | zero => intro s; exact ⟨rfl, rfl⟩
  | succ k ih =>
    intro s
    simp [scrollIter, (ih (step s)).1, (ih (step s)).2, List.replicate_succ]

/-- C8 counterexample: the claim says the loop terminates early when no
further review items appear between iterations.  With a page state that never
changes (no further items ever appear), the loop still performs its full
budget of 10 iterations, never fewer. -/
theorem c8_no_early_termination :
    (scrollLoop true (fun n : Nat => n) 0).2.1 = 10
    ∧ ¬ (scrollLoop true (fun n : Nat => n) 0).2.1 < 10 := by
  decide

/-- C8 amended: the scroll loop performs at most 10 scroll-to-bottom
iterations with a fixed 1-second pause after each; it performs exactly 10
whenever the container is found (no early-termination check) and 0 when it
is absent. -/
theorem c8_scroll_bounded (σ : Type) (step : σ → σ) (s0 : σ) :
    (scrollLoop true step s0).2.1 = 10
    ∧ (scrollLoop false step s0).2.1 = 0
    ∧ (scrollLoop true step s0).2.2 = List.replicate 10 1
    ∧ ∀ hc : Bool, (scrollLoop hc step s0).2.1 ≤ 10 := by
  refine ⟨?_, rfl, ?_, ?_⟩
  · simpa [scrollLoop] using (scrollIter_count step 10 s0).1
  · simpa [scrollLoop] using (scrollIter_count step 10 s0).2
  · intro hc
    cases hc
    · simp [scrollLoop]
    · simp [scrollLoop, (scrollIter_count step 10 s0).1]

/-! Orchestrator lemmas: the results and the status trace of the scrape loop. -/

lemma scrapeLoop_results (outcome : Business → ScrapeOutcome) (total : Nat) :
    ∀ (l : List Business) (i : Nat), (scrapeLoop outcome total l i).1 = entriesOf outcome l := by
  intro l
  induction l with
  | nil => intro i; rfl
  | cons b rest ih =>
    intro i
    by_cases h : pyTruthyStr b.url = true
    · simp [scrapeLoop, entriesOf, List.filterMap_cons, h, ih (i + 1)]
    · simp [scrapeLoop, entriesOf, List.filterMap_cons, h, ih (i + 1)]

lemma scrapeLoop_statusRecs (outcome : Business → ScrapeOutcome) (total : Nat) :
    ∀ (l : List Business) (i : Nat) (s : StatusRec), s ∈ (scrapeLoop outcome total l i).2 →
      s.status = "running" ∧ i < s.progress ∧ s.progress ≤ i + l.length ∧ s.total = total := by
  intro l
  induction l with
  | nil => intro i s hs; simp [scrapeLoop] at hs
  | cons b rest ih =>
    intro i s hs
    by_cases h : pyTruthyStr b.url = true
    · simp only [scrapeLoop, h, if_true] at hs
      rcases List.mem_cons.mp hs with rfl | hs2
      · refine ⟨rfl, ?_, ?_, rfl⟩
        · show i < i + 1
          omega
        · show i + 1 ≤ i + (rest.length + 1)
          omega
      · obtain ⟨h1, h2, h3, h4⟩ := ih (i + 1) s hs2
        refine ⟨h1, by omega, ?_, h4⟩
        show s.progress ≤ i + (rest.length + 1)
        omega
    · simp only [scrapeLoop, h, if_false] at hs
      obtain ⟨h1, h2, h3, h4⟩ := ih (i + 1) s hs
      refine ⟨h1, by omega, ?_, h4⟩
      show s.progress ≤ i + (rest.length + 1)
      omega

lemma entriesOf_filter (outcome : Business → ScrapeOutcome) :
    ∀ l : List Business,
      entriesOf outcome (l.filter (fun b => pyTruthyStr b.url)) = entriesOf outcome l := by
  intro l
  induction l with
  | nil => rfl
  | cons b rest ih =>
    by_cases h : pyTruthyStr b.url = true
    · simp [entriesOf, List.filter_cons, List.filterMap_cons, h] at ih ⊢
      exact ih
    · simp [entriesOf, List.filter_cons, List.filterMap_cons, h] at ih ⊢
      exact ih

lemma entriesOf_length (outcome : Business → ScrapeOutcome) :
    ∀ l : List Business,
      (entriesOf outcome l).length = (l.filter (fun b => pyTruthyStr b.url)).length := by
  intro l
  induction l with
  | nil => rfl
  | cons b rest ih =>
    by_cases h : pyTruthyStr b.url = true
    · simp [entriesOf, List.filter_cons, List.filterMap_cons, h] at ih ⊢
      exact ih
    · simp [entriesOf, List.filter_cons, List.filterMap_cons, h] at ih ⊢
      exact ih

lemma getLast?_cons_append {α : Type} (a x : α) (l : List α) :
    (a :: (l ++ [x])).getLast? = some x := by
  rw [← List.cons_append]
  exact List.getLast?_concat _

lemma runScrape_getLast (businesses : List Business) (outcome : Business → ScrapeOutcome) :
    (runScrape businesses outcome).2.getLast? =
      some { status := "completed", progress := businesses.length,
             total := businesses.length, current := none } :=
  getLast?_cons_append _ _ _

/-! C9: businesses without a target url are counted in the total but produce
no result entry, and progress stays consistent. -/

/-- C9: for every configuration and scrape behaviour, the run produces exactly
one result entry per business with a truthy url (none for skipped ones), every
status record written keeps `progress ≤ total` with `total` equal to the full
configured count (skipped businesses included), and the final record is
`completed` with `progress = total`. -/
theorem c9_skipped_counted_no_entry (bs : List Business) (outcome : Business → ScrapeOutcome) :
    (runScrape bs outcome).1 = entriesOf outcome (bs.filter (fun b => pyTruthyStr b.url))
    ∧ (runScrape bs outcome).1.length = (bs.filter (fun b => pyTruthyStr b.url)).length
    ∧ (∀ s ∈ (runScrape bs outcome).2, s.progress ≤ s.total ∧ s.total = bs.length)
    ∧ (runScrape bs outcome).2.getLast? =
        some { status := "completed", progress := bs.length,
               total := bs.length, current := none } := by
  have hres : (runScrape bs outcome).1 = entriesOf outcome bs :=
    scrapeLoop_results outcome bs.length bs 0
  refine ⟨?_, ?_, ?_, runScrape_getLast bs outcome⟩
  · rw [hres, entriesOf_filter]
  · rw [hres, entriesOf_length]
  · intro s hs
    unfold runScrape at hs
    rcases List.mem_cons.mp hs with rfl | hs2
    · exact ⟨Nat.zero_le _, rfl⟩
    · rcases List.mem_append.mp hs2 with hmid | hlast
      · obtain ⟨h1, h2, h3, h4⟩ := scrapeLoop_statusRecs outcome bs.length bs 0 s hmid
        exact ⟨by omega, h4⟩
      · rcases List.mem_singleton.mp hlast with rfl
        exact ⟨Nat.le_refl _, rfl⟩

/-- Concrete businesses and scrape behaviour for the orchestrator witnesses. -/
def bizNoUrl : Business := { id := some 1, name := "A", url := none }

/-- Business with a url that scrapes successfully in the witnesses. -/
def bizC : Business := { id := some 3, name := "C", url := some "http://c" }

/-- Business with a url whose scrape raises in the witnesses. -/
def bizB : Business := { id := some 2, name := "B", url := some "http://b" }

/-- Scrape behaviour for the witnesses: business "B" raises, all others
return an empty successful result. -/
def outcomeW : Business → ScrapeOutcome := fun b =>
  if b.name = "B" then .exn "net down"
  else .ok { name := b.name, url := b.url, reviews := [] }

/-- The first status record written by the witness run. -/
def initialRecW : StatusRec :=
  { status := "running", progress := 0, total := 2, current := none }

/-- C9 witness: the statement applied to a concrete run containing a
url-less business, with the status-record quantifier discharged at the
initial record of its trace. -/
theorem c9_skipped_counted_no_entry_witness :
    (runScrape [bizNoUrl, bizC] outcomeW).1.length
        = ([bizNoUrl, bizC].filter (fun b => pyTruthyStr b.url)).length
    ∧ initialRecW ∈ (runScrape [bizNoUrl, bizC] outcomeW).2
    ∧ initialRecW.progress ≤ initialRecW.total :=
  ⟨(c9_skipped_counted_no_entry [bizNoUrl, bizC] outcomeW).2.1,
    by decide,
    ((c9_skipped_counted_no_entry [bizNoUrl, bizC] outcomeW).2.2.1
      initialRecW (by decide)).1⟩

/-! C1: a failing per-business scrape is converted to an error record and the
run still completes. -/

/-- C1: if a business's scrape fails internally — whether as an exception
escaping the scraper call or as a navigation failure caught inside
`scrape_google_reviews` — the run's result list still contains one entry per
remaining business, the failing business's entry has `reviews = []` and a
non-empty `error` string, and the run ends in status "completed" with
`progress = total`. -/
theorem c1_failure_isolated (pre post : List Business) (b : Business)
    (outcome : Business → ScrapeOutcome) (u e : String)
    (hu : b.url = some u) (hu2 : u ≠ "") (he : e ≠ "")
    (hfail : outcome b = .exn e
      ∨ outcome b = .ok (scrapeGoogleReviews b.name u (.navFail e))) :
    (runScrape (pre ++ b :: post) outcome).1
        = entriesOf outcome pre ++ entryFor outcome b :: entriesOf outcome post
    ∧ (entryFor outcome b).reviews = []
    ∧ (entryFor outcome b).error = some e
    ∧ (entryFor outcome b).error ≠ some ""
    ∧ (runScrape (pre ++ b :: post) outcome).2.getLast? =
        some { status := "completed", progress := (pre ++ b :: post).length,
               total := (pre ++ b :: post).length, current := none } := by
  have htr : pyTruthyStr b.url = true := by simp [pyTruthyStr, hu, hu2]
  have hentry : (entryFor outcome b).reviews = [] ∧ (entryFor outcome b).error = some e := by
    rcases hfail with hf | hf
    · simp [entryFor, hf, errEntry]
    · simp [entryFor, hf, scrapeGoogleReviews]
  refine ⟨?_, hentry.1, hentry.2, ?_, runScrape_getLast _ outcome⟩
  · have hres : (runScrape (pre ++ b :: post) outcome).1
        = entriesOf outcome (pre ++ b :: post) :=
      scrapeLoop_results outcome (pre ++ b :: post).length (pre ++ b :: post) 0
    rw [hres]
    unfold entriesOf
    rw [List.filterMap_append, List.filterMap_cons]
    simp [htr]
  · rw [hentry.2]
    intro hcontra
    exact he (Option.some.injEq _ _ ▸ hcontra)

/-- C1 witness: a concrete two-business run in which the first business's
scrape raises; the hypotheses of the theorem are discharged at this input. -/
theorem c1_failure_isolated_witness :
    bizB.url = some "http://b"
    ∧ outcomeW bizB = .exn "net down"
    ∧ (runScrape ([] ++ bizB :: [bizC]) outcomeW).1
        = entriesOf outcomeW [] ++ entryFor outcomeW bizB :: entriesOf outcomeW [bizC]
    ∧ (entryFor outcomeW bizB).reviews = []
    ∧ (entryFor outcomeW bizB).error = some "net down" :=
  ⟨rfl, rfl,
    (c1_failure_isolated [] [bizC] bizB outcomeW "http://b" "net down"
      rfl (by decide) (by decide) (Or.inl rfl)).1,
    (c1_failure_isolated [] [bizC] bizB outcomeW "http://b" "net down"
      rfl (by decide) (by decide) (Or.inl rfl)).2.1,
    (c1_failure_isolated [] [bizC] bizB outcomeW "http://b" "net down"
      rfl (by decide) (by decide) (Or.inl rfl)).2.2.1⟩

/-! Stats lemmas: characterization of the aggregation fold. -/

lemma reviewNeeds_ok (bname : String) (r : Review) (o : Option NeedsItem)
    (h : reviewNeeds bname r = .ok o) :
    ∀ it, o = some it → pyTruthyFieldStr r.owner_response = false
      ∧ ∃ n, r.rating = PyField.val n ∧ n ≤ 3 ∧ it = mkNeedsItem bname r := by
  intro it ho
  subst ho
  unfold reviewNeeds at h
  by_cases hT : pyTruthyFieldStr r.owner_response = true
  · rw [if_pos hT] at h
    injection h with h
    exact absurd h (by simp)
  · rw [if_neg hT] at h
    cases hrat : r.rating with
    | missing =>
      rw [hrat] at h
      injection h with h
      exact absurd h (by simp)
    | null =>
      rw [hrat] at h
      exact Except.noConfusion h
    | val n =>
      rw [hrat] at h
      injection h with h
      by_cases hn : n ≤ 3
      · rw [if_pos hn] at h
        injection h with h
        exact ⟨by simpa using hT, n, rfl, hn, h.symm⟩
      · rw [if_neg hn] at h
        exact absurd h (by simp)

lemma needsList_mem (bname : String) :
    ∀ (rs : List Review) (items : List NeedsItem), needsList bname rs = .ok items →
      ∀ it ∈ items, ∃ r, r ∈ rs ∧ pyTruthyFieldStr r.owner_response = false
        ∧ ∃ n, r.rating = PyField.val n ∧ n ≤ 3 ∧ it = mkNeedsItem bname r := by
  intro rs
  induction rs with
  | nil =>
    intro items h it hit
    simp only [needsList] at h
    injection h with h
    subst h
    simp at hit
  | cons r rest ih =>
    intro items h it hit
    simp only [needsList] at h
    cases hrn : reviewNeeds bname r with
    | error e =>
      rw [hrn] at h
      exact Except.noConfusion h
    | ok o =>
      rw [hrn] at h
      cases hnl : needsList bname rest with
      | error e =>
        rw [hnl] at h
        exact Except.noConfusion h
      | ok rest2 =>
        rw [hnl] at h
        injection h with h
        subst h
        rcases List.mem_append.mp hit with hin | hin
        · cases o with
          | none => simp at hin
          | some a =>
            have ha : it = a := by simpa using hin
            subst ha
            obtain ⟨hT, n, hrat, hn, heq⟩ := reviewNeeds_ok bname r (some it) hrn it rfl
            exact ⟨r, List.mem_cons_self r rest, hT, n, hrat, hn, heq⟩
        · obtain ⟨r2, hr2, hT2, hrest⟩ := ih rest2 hnl it hin
          exact ⟨r2, List.mem_cons_of_mem r hr2, hT2, hrest⟩

lemma statsFold_ok (results : List BizResult) :
    ∀ (l : List Business) (acc acc2 : StatsAcc), statsFold results l acc = .ok acc2 →
      acc2.total_reviews = acc.total_reviews
          + (l.map (fun b => (reviewsFor results b).length)).sum
      ∧ acc2.all_ratings = acc.all_ratings ++ l.filterMap (includedRating results)
      ∧ acc2.dist = l.foldl (fun d b => (reviewsFor results b).foldl distStep d) acc.dist
      ∧ acc2.summaries = acc.summaries ++ l.map (summaryFor results)
      ∧ ∀ it ∈ acc2.needs, it ∈ acc.needs ∨
          ∃ b, b ∈ l ∧ ∃ r, r ∈ reviewsFor results b
            ∧ pyTruthyFieldStr r.owner_response = false
            ∧ ∃ n, r.rating = PyField.val n ∧ n ≤ 3 ∧ it = mkNeedsItem b.name r := by
  intro l
  induction l with
  | nil =>
    intro acc acc2 h
    simp only [statsFold] at h
    injection h with h
    subst h
    exact ⟨by simp, by simp, rfl, by simp, fun it hit => Or.inl hit⟩
  | cons b l2 ih =>
    intro acc acc2 h
    simp only [statsFold] at h
    cases hp : processBiz results acc b with
    | error e =>
      rw [hp] at h
      exact Except.noConfusion h
    | ok acc1 =>
      rw [hp] at h
      obtain ⟨H1, H2, H3, H4, H5⟩ := ih acc1 acc2 h
      unfold processBiz at hp
      cases hn : needsList b.name (reviewsFor results b) with
      | error e =>
        rw [hn] at hp
        exact Except.noConfusion hp
      | ok items =>
        rw [hn] at hp
        injection hp with hp
        subst hp
        refine ⟨?_, ?_, ?_, ?_, ?_⟩
        · rw [H1]
          simp only [List.map_cons, List.sum_cons]
          omega
        · rw [H2]
          cases hi : includedRating results b <;>
            simp [List.filterMap_cons, hi, List.append_assoc, Option.toList]
        · rw [H3]
          simp [List.foldl_cons]
        · rw [H4]
          simp [List.map_cons, List.append_assoc]
        · intro it hit
          rcases H5 it hit with hin | ⟨b2, hb2, hrest⟩
          · rcases List.mem_append.mp hin with h1 | h2
            · exact Or.inl h1
            · obtain ⟨r, hrmem, hT, n, hrat, hn3, heq⟩ :=
                needsList_mem b.name (reviewsFor results b) items hn it h2
              exact Or.inr ⟨b, List.mem_cons_self b l2, r, hrmem, hT, n, hrat, hn3, heq⟩
          · exact Or.inr ⟨b2, List.mem_cons_of_mem b hb2, hrest⟩

/-! C4: which configured businesses the aggregation processes. -/

/-- C4 counterexample: the claim says every configured business contributes to
`total_businesses` and appears in the per-business summary, but a business
whose name contains "GS Thompson" is filtered out before aggregation: with one
such configured business the stats report zero businesses and an empty
summary. -/
theorem c4_gs_business_not_counted :
    (statsOf (getStats
        [{ id := some 1, name := "GS Thompson - Main", url := some "http://maps" }] [] none)).map
      Stats.total_businesses = some 0
    ∧ (statsOf (getStats
        [{ id := some 1, name := "GS Thompson - Main", url := some "http://maps" }] [] none)).map
      Stats.businesses_summary = some []
    ∧ ([{ id := some 1, name := "GS Thompson - Main",
          url := some "http://maps" }] : List Business).length = 1
    ∧ ¬ ((0 : ℕ) = 1) :=
  ⟨rfl, rfl, rfl, by decide⟩

/-- C4 amended: on a successful aggregation, every configured business whose
name does not contain "GS Thompson" is processed in configuration order: the
business count, the summary list, the review total and the global histogram
are exactly the fold of those businesses, and a business with no matching
result yields a summary with zero reviews and an unknown rating, never an
error. -/
theorem c4_stats_per_nonGS_business (cfg : List Business) (results : List BizResult)
    (sa : Option String) (s : Stats) (h : getStats cfg results sa = .ok s) :
    s.total_businesses = (nonGSList cfg).length
    ∧ s.businesses_summary = (nonGSList cfg).map (summaryFor results)
    ∧ s.total_reviews = ((nonGSList cfg).map (fun b => (reviewsFor results b).length)).sum
    ∧ s.rating_distribution = (nonGSList cfg).foldl
        (fun d b => (reviewsFor results b).foldl distStep d) {}
    ∧ ∀ b ∈ nonGSList cfg, lookupScraped results b.id = none →
        summaryFor results b =
          { id := b.id, name := b.name, address := b.address, rating := none,
            review_count := 0, url := b.url, rating_distribution := {} } := by
  unfold getStats at h
  cases hf : statsFold results (nonGSList cfg) {} with
  | error e =>
    rw [hf] at h
    exact Except.noConfusion h
  | ok acc =>
    rw [hf] at h
    injection h with h
    subst h
    obtain ⟨H1, H2, H3, H4, H5⟩ := statsFold_ok results (nonGSList cfg) {} acc hf
    refine ⟨rfl, ?_, ?_, ?_, ?_⟩
    · simpa using H4
    · simpa using H1
    · simpa using H3
    · intro b hb hnone
      simp [summaryFor, reviewsFor, ratingFor, bizDist, hnone]

/-- Configuration and result set for the C4 witness. -/
def cfgW4 : List Business := [{ id := some 1, name := "Acme Cafe" }]

/-- The stats value `get_stats` produces for the C4 witness input. -/
def sW4 : Stats :=
  { total_businesses := 1, total_reviews := 0, average_rating := 0,
    rating_distribution := {},
    businesses_summary := [{ id := some 1, name := "Acme Cafe", address := none,
                             rating := none, review_count := 0, url := none,
                             rating_distribution := {} }],
    recent_reviews := [], needs_response := [], scraped_at := none }

/-- C4 amended witness: the theorem applied at a concrete one-business
configuration with no scrape results. -/
theorem c4_stats_per_nonGS_business_witness :
    getStats cfgW4 [] none = Except.ok sW4
    ∧ sW4.total_businesses = (nonGSList cfgW4).length :=
  ⟨rfl, (c4_stats_per_nonGS_business cfgW4 [] none sW4 rfl).1⟩

/-! C5: what enters the global average rating. -/

lemma pyRound2_four : pyRound2 4 = 4 := by
  have hfl : Rat.floor ((4 : ℚ) * 100) = 400 := by norm_num [Rat.floor]
  unfold pyRound2 roundHalfEven
  rw [hfl]
  norm_num

/-- Configuration for the C5 counterexample: business A has a present overall
rating of 0.0, business B one of 4.0. -/
def cfgC5 : List Business := [{ id := some 1, name := "A" }, { id := some 2, name := "B" }]

/-- Results for the C5 counterexample. -/
def resC5 : List BizResult :=
  [{ id := some 1, name := "A", overall_rating := some 0 },
    { id := some 2, name := "B", overall_rating := some 4 }]

/-- C5 counterexample: the claim says `average_rating` is the mean of the
overall ratings of exactly those businesses whose rating is present.  With
present ratings 0.0 and 4.0 that mean is 2, but the code's truthiness check
`if biz_rating:` drops the present rating 0.0, so the reported average is 4. -/
theorem c5_zero_rating_excluded :
    (statsOf (getStats cfgC5 resC5 none)).map Stats.average_rating = some 4
    ∧ claimAverageRating cfgC5 resC5 = 2
    ∧ ¬ ((4 : ℚ) = 2) := by
  refine ⟨?_, ?_, by norm_num⟩
  · have h1 : (statsOf (getStats cfgC5 resC5 none)).map Stats.average_rating
        = some (if ([4] : List ℚ) = [] then 0
            else pyRound2 ((List.sum [(4 : ℚ)]) / ((List.length [(4 : ℚ)] : ℕ) : ℚ))) := rfl
    rw [h1, if_neg (by simp)]
    have h2 : (List.sum [(4 : ℚ)]) / ((List.length [(4 : ℚ)] : ℕ) : ℚ) = 4 := by
      norm_num
    rw [h2, pyRound2_four]
  · have hfm : cfgC5.filterMap (ratingFor resC5) = [(0 : ℚ), 4] := rfl
    unfold claimAverageRating
    rw [hfm, if_neg (by simp)]
    norm_num [List.sum_cons, List.sum_nil]

/-- C5 amended: on a successful aggregation, `average_rating` is the
round-half-even to two decimals of the mean of the overall ratings of exactly
those non-"GS Thompson" configured businesses whose rating is present and
nonzero (0 when there are none); review ratings never enter it. -/
theorem c5_average_from_nonzero_present (cfg : List Business) (results : List BizResult)
    (sa : Option String) (s : Stats) (h : getStats cfg results sa = .ok s) :
    s.average_rating =
      if (nonGSList cfg).filterMap (includedRating results) = [] then 0
      else pyRound2 (((nonGSList cfg).filterMap (includedRating results)).sum
        / (((nonGSList cfg).filterMap (includedRating results)).length : ℚ)) := by
  unfold getStats at h
  cases hf : statsFold results (nonGSList cfg) {} with
  | error e =>
    rw [hf] at h
    exact Except.noConfusion h
  | ok acc =>
    rw [hf] at h
    injection h with h
    subst h
    obtain ⟨H1, H2, H3, H4, H5⟩ := statsFold_ok results (nonGSList cfg) {} acc hf
    have hra : acc.all_ratings = (nonGSList cfg).filterMap (includedRating results) := by
      simpa using H2
    dsimp only
    rw [hra]

/-- Configuration for the C5 witness. -/
def cfgW5 : List Business := [{ id := some 1, name := "A" }]

/-- Results for the C5 witness: one business with overall rating 4.0. -/
def resW5 : List BizResult := [{ id := some 1, name := "A", overall_rating := some 4 }]

/-- The stats value `get_stats` produces for the C5 witness input. -/
def sW5 : Stats :=
  { total_businesses := 1, total_reviews := 0, average_rating := 4,
    rating_distribution := {},
    businesses_summary := [{ id := some 1, name := "A", address := none,
                             rating := some 4, review_count := 0, url := none,
                             rating_distribution := {} }],
    recent_reviews := [], needs_response := [], scraped_at := none }

/-- The average expression `get_stats` builds for the C5 witness input,
before numeric evaluation. -/
def avgExprW5 : ℚ :=
  if ([4] : List ℚ) = [] then (0 : ℚ)
  else pyRound2 ((List.sum [(4 : ℚ)]) / ((List.length [(4 : ℚ)] : ℕ) : ℚ))

/-- C5 amended witness: the theorem applied at a concrete input with one
present nonzero rating. -/
theorem c5_average_from_nonzero_present_witness :
    getStats cfgW5 resW5 none = Except.ok sW5
    ∧ sW5.average_rating =
        (if (nonGSList cfgW5).filterMap (includedRating resW5) = [] then 0
         else pyRound2 (((nonGSList cfgW5).filterMap (includedRating resW5)).sum
           / (((nonGSList cfgW5).filterMap (includedRating resW5)).length : ℚ))) := by
  have havg : avgExprW5 = 4 := by
    unfold avgExprW5
    rw [if_neg (by simp)]
    have h2 : (List.sum [(4 : ℚ)]) / ((List.length [(4 : ℚ)] : ℕ) : ℚ) = 4 := by norm_num
    rw [h2, pyRound2_four]
  have hok : getStats cfgW5 resW5 none = Except.ok sW5 := by
    have h1 : getStats cfgW5 resW5 none
        = Except.ok { sW5 with average_rating := avgExprW5 } := rfl
    rw [h1, havg]
    rfl
  exact ⟨hok, c5_average_from_nonzero_present cfgW5 resW5 none sW5 hok⟩

/-! C6: membership of `needs_response`. -/

/-- C6: on a successful aggregation, every member of `needs_response` comes
from a review of a processed business whose `owner_response` is not a
non-empty string and whose rating is present with value at most 3; a review
with a non-empty owner response is never included. -/
theorem c6_needs_response_members (cfg : List Business) (results : List BizResult)
    (sa : Option String) (s : Stats) (h : getStats cfg results sa = .ok s) :
    ∀ it ∈ s.needs_response, ∃ b, b ∈ nonGSList cfg ∧ ∃ r, r ∈ reviewsFor results b
      ∧ pyTruthyFieldStr r.owner_response = false
      ∧ ∃ n, r.rating = PyField.val n ∧ n ≤ 3 ∧ it = mkNeedsItem b.name r := by
  unfold getStats at h
  cases hf : statsFold results (nonGSList cfg) {} with
  | error e =>
    rw [hf] at h
    exact Except.noConfusion h
  | ok acc =>
    rw [hf] at h
    injection h with h
    subst h
    obtain ⟨H1, H2, H3, H4, H5⟩ := statsFold_ok results (nonGSList cfg) {} acc hf
    intro it hit
    have hit2 : it ∈ acc.needs := List.take_subset 20 acc.needs (by simpa using hit)
    rcases H5 it hit2 with hin | hex
    · simp at hin
    · exact hex

/-- The qualifying review of the C6 witness: rating 2, no owner response. -/
def revW6 : Review :=
  { reviewer_name := some "Bob", rating := .val 2, text := "bad",
    date := none, owner_response := .missing }

/-- The needs-response entry built from `revW6`. -/
def itW6 : NeedsItem :=
  { business_name := "A", reviewer := some "Bob", rating := some 2,
    text := "bad", date := none }

/-- Configuration for the C6 witness. -/
def cfgW6 : List Business := [{ id := some 1, name := "A" }]

/-- Results for the C6 witness. -/
def resW6 : List BizResult := [{ id := some 1, name := "A", reviews := [revW6] }]

/-- The stats value `get_stats` produces for the C6 witness input. -/
def sW6 : Stats :=
  { total_businesses := 1, total_reviews := 1, average_rating := 0,
    rating_distribution := { two := 1 },
    businesses_summary := [{ id := some 1, name := "A", address := none,
                             rating := none, review_count := 1, url := none,
                             rating_distribution := { two := 1 } }],
    recent_reviews := [{ business_name := "A", review := revW6 }],
    needs_response := [itW6], scraped_at := none }

/-- C6 witness: the theorem applied at a concrete input whose single
needs-response entry comes from a rating-2 review without owner response. -/
theorem c6_needs_response_members_witness :
    getStats cfgW6 resW6 none = Except.ok sW6
    ∧ (∃ b, b ∈ nonGSList cfgW6 ∧ ∃ r, r ∈ reviewsFor resW6 b
        ∧ pyTruthyFieldStr r.owner_response = false
        ∧ ∃ n, r.rating = PyField.val n ∧ n ≤ 3 ∧ itW6 = mkNeedsItem b.name r) :=
  ⟨rfl, c6_needs_response_members cfgW6 resW6 none sW6 rfl itW6 (by decide)⟩

/-! C10: the aggregation raises on a null rating produced by the search-page
fallback extraction. -/

/-- The review shape produced by the search-page fallback extraction
(src/scraper.py lines 224-229): rating key present with value `None`,
`owner_response` key absent. -/
def rev10 : Review :=
  { reviewer_name := some "Google User", rating := .null,
    text := "Great place with lots of space", date := none, owner_response := .missing }

/-- Configuration for the C10 failing input. -/
def cfg10 : List Business := [{ id := some 1, name := "A" }]

/-- Result set for the C10 failing input. -/
def res10 : List BizResult := [{ id := some 1, name := "A", reviews := [rev10] }]

/-- C10: the claim says the aggregation is total and processes the fallback
review shape without error, but on that shape `review.get("rating", 5)`
returns `None` (the default applies only to a missing key) and `None <= 3`
raises a `TypeError`, so `get_stats` raises instead of returning stats. -/
theorem c10_aggregation_raises_on_null_rating :
    getStats cfg10 res10 none = .error () := rfl

end ReviewMonitor
